import Mathlib

/-!
# Scenario driver of CIAM (`src/CIAM/scenario.cpp`)

A shallow embedding of `Scenario::XMLParse`, `Scenario::toDebugXMLOpen`,
`Scenario::toDebugXMLClose`, `Scenario::printGraphs` and `Scenario::run`.

`Scenario::run` is a straight sequence of calls on the collaborators
(`Marketplace`, `World`, `Modeltime`, `Tabs`, the output streams) followed by
one `for` loop over the periods.  It is embedded as the list of calls it
issues, in program order: an `Event` per call.  The bodies of the collaborators
are not part of `scenario.cpp`; where a property needs their effect, it is
taken as a parameter (`Interp`) together with the contract the specification
gives for it.

Periods are C++ `int`; they are embedded as `Int`.  The loop counter never
overflows: `per++` is only executed when `per < getmaxper()`.
-/

namespace CIAM

/-! ## Calls issued by the driver -/

/-- The output streams the driver writes to with `<<`. -/
inductive Sink
  | cout
  | logfile
  | sdcurvefile
  | xmlDebugStream
  deriving DecidableEq, Repr

/-- One call issued by `Scenario::run` (or by a member function it calls) on a
collaborator.  Pure reads of the `Configuration` singleton and
`Modeltime::getmaxper` are not recorded; their results are inputs (`Driver`). -/
inductive Event
  /-- Call `xmlDebugStream.open( conf->getFile( "xmlDebugFileName" ).c_str(), ios::out )` -/
  | openDebugStream (fileName : String)
  /-- Call `world->setupCalibrationMarkets()` -/
  | setupCalibrationMarkets
  /-- Call `marketplace->initPrices()` -/
  | initPrices
  /-- Call `marketplace->nullDemands( per )` -/
  | nullDemands (per : Int)
  /-- Call `marketplace->nullSupplies( per )` -/
  | nullSupplies (per : Int)
  /-- Call `marketplace->storeto_last( per )` -/
  | storeto_last (per : Int)
  /-- Call `marketplace->init_to_last( per )` -/
  | init_to_last (per : Int)
  /-- Call `world->initCalc( per )` -/
  | initCalc (per : Int)
  /-- Call `world->calc( per )` -/
  | calc (per : Int)
  /-- Call `marketplace->solve( per )` -/
  | solve (per : Int)
  /-- Call `world->updateSummary( per )` -/
  | updateSummary (per : Int)
  /-- Call `world->emiss_ind( per )` -/
  | emiss_ind (per : Int)
  /-- Call `modeltime->getper_to_yr( per )` -/
  | getper_to_yr (per : Int)
  /-- Statement `out << text` : the text of one output statement, without its `endl`. -/
  | put (out : Sink) (text : String)
  /-- Statement `out << endl` : ends the current row of the stream. -/
  | endl (out : Sink)
  /-- Call `Tabs::writeTabs( out )` -/
  | writeTabs (out : Sink)
  /-- Call `Tabs::increaseIndent()` -/
  | increaseIndent
  /-- Call `Tabs::decreaseIndent()` -/
  | decreaseIndent
  /-- Call `modeltime->toDebugXML( period, out )` on the debug stream -/
  | modeltimeToDebugXML (per : Int)
  /-- Call `world->toDebugXML( period, out )` on the debug stream -/
  | worldToDebugXML (per : Int)
  /-- Call `LoggerFactory::getLogger( name )` -/
  | getLogger (name : String)
  /-- Call `world->printSectorDependencies( logger )` -/
  | worldPrintSectorDependencies
  /-- Call `graphStream.open( fileName.c_str() )` -/
  | graphOpen (fileName : String)
  /-- Call `util::checkIsOpen( graphStream, fileName )` -/
  | checkIsOpen (fileName : String)
  /-- Call `world->printGraphs( graphStream, period )` -/
  | worldPrintGraphs (per : Int)
  /-- Call `graphStream.close()` -/
  | graphClose
  /-- Call `world->calculateEmissionsTotals()` -/
  | calculateEmissionsTotals
  /-- Call `writeClimatData()` -/
  | writeClimatData
  /-- Call `CLIMAT()` -/
  | CLIMAT
  /-- Call `xmlDebugStream.close()` -/
  | closeDebugStream
  deriving DecidableEq, Repr

/-- The settings `Scenario::run` and `Scenario::printGraphs` read from the
`Configuration` singleton, already resolved (`getBool( "PrintSectorDependencies", 0 )`
and `getFile( "dependencyGraphName", "graph" )` with their defaults applied). -/
structure Configuration where
  xmlDebugFileName : String
  CalibrationActive : Bool
  PrintSectorDependencies : Bool
  PrintDependencyGraphs : Bool
  dependencyGraphName : String

/-- The two lookups of `Modeltime` the driver uses: `getmaxper()` and
`getper_to_yr( per )`.  The class itself is declared in `modeltime.h`. -/
structure Modeltime where
  maxper : Int
  per_to_yr : Int → Int

/-- Everything `Scenario::run` reads: the configuration, the period index, the
scenario `name`, the string `util::XMLCreateDate( ltime )` returns, and whether
the build has `__HAVE_FORTRAN__`. -/
structure Driver where
  conf : Configuration
  modeltime : Modeltime
  name : String
  dateString : String
  haveFortran : Bool

/-! ## `operator>>` into a `std::string` -/

/-- The characters `std::isspace` accepts in the default locale. -/
def isspace (c : Char) : Bool :=
  c == ' ' || c == '\t' || c == '\n' || c == '\x0b' || c == '\x0c' || c == '\r'

/-- Formatted extraction `fileNameBuffer >> fileName`: leading whitespace is
skipped, then characters are taken up to the next whitespace. -/
def extractWord (buffer : String) : String :=
  String.mk ((buffer.data.dropWhile isspace).takeWhile (fun c => !isspace c))

/-! ## Member functions -/

namespace Scenario

/-- Member `Scenario::toDebugXMLOpen( period, out )` with `out = xmlDebugStream`. -/
def toDebugXMLOpen (d : Driver) (period : Int) : List Event :=
  [ Event.writeTabs Sink.xmlDebugStream,
    Event.put Sink.xmlDebugStream
      ("<scenario name=\"" ++ d.name ++ "\" date=\"" ++ d.dateString ++ "\">"),
    Event.endl Sink.xmlDebugStream,
    Event.increaseIndent,
    Event.writeTabs Sink.xmlDebugStream,
    Event.put Sink.xmlDebugStream "<summary>\"Debugging output\"</summary>",
    Event.endl Sink.xmlDebugStream,
    Event.modeltimeToDebugXML period,
    Event.worldToDebugXML period ]

/-- Member `Scenario::toDebugXMLClose( period, out )` with `out = xmlDebugStream`;
`period` is not used by the body. -/
def toDebugXMLClose (_period : Int) : List Event :=
  [ Event.decreaseIndent,
    Event.writeTabs Sink.xmlDebugStream,
    Event.put Sink.xmlDebugStream "</scenario>",
    Event.endl Sink.xmlDebugStream ]

/-- The file name `Scenario::printGraphs` builds:
`fileNameBuffer << base << "_" << period << ".dot"; fileNameBuffer >> fileName`. -/
def graphFileName (conf : Configuration) (period : Int) : String :=
  extractWord (conf.dependencyGraphName ++ "_" ++ toString period ++ ".dot")

/-- Member `Scenario::printGraphs( period )`. -/
def printGraphs (conf : Configuration) (period : Int) : List Event :=
  [ Event.graphOpen (graphFileName conf period),
    Event.checkIsOpen (graphFileName conf period),
    Event.worldPrintGraphs period,
    Event.graphClose ]

/-- Member `Scenario::printSectorDependencies()`. -/
def printSectorDependencies : List Event :=
  [ Event.getLogger "SectorDependenciesLogger",
    Event.worldPrintSectorDependencies ]

/-- The text `"Market,Name,Price,Supply,Demand,"` each of the five header
statements of the loop writes to `sdcurvefile`. -/
def sdHeaderGroup : String := "Market,Name,Price,Supply,Demand,"

/-- The body of the `for` loop of `Scenario::run` (source lines 250 to 277). -/
def loopBody (d : Driver) (per : Int) : List Event :=
  [ Event.getper_to_yr per,
    Event.endl Sink.cout,
    Event.put Sink.cout
      ("Period " ++ toString per ++ ": " ++ toString (d.modeltime.per_to_yr per)),
    Event.endl Sink.cout,
    Event.getper_to_yr per,
    Event.put Sink.logfile
      ("Period:  " ++ toString per ++ "  Year:  " ++ toString (d.modeltime.per_to_yr per)),
    Event.endl Sink.logfile,
    Event.getper_to_yr per,
    Event.put Sink.sdcurvefile
      ("Period " ++ toString per ++ ": " ++ toString (d.modeltime.per_to_yr per)),
    Event.endl Sink.sdcurvefile,
    Event.put Sink.sdcurvefile sdHeaderGroup,
    Event.put Sink.sdcurvefile sdHeaderGroup,
    Event.put Sink.sdcurvefile sdHeaderGroup,
    Event.put Sink.sdcurvefile sdHeaderGroup,
    Event.put Sink.sdcurvefile sdHeaderGroup,
    Event.endl Sink.sdcurvefile,
    Event.nullDemands per,
    Event.nullSupplies per,
    Event.storeto_last per,
    Event.init_to_last per,
    Event.initCalc per,
    Event.calc per,
    Event.solve per,
    Event.updateSummary per,
    Event.emiss_ind per,
    Event.worldToDebugXML per ]
  ++ (if d.conf.PrintDependencyGraphs then printGraphs d.conf per else [])

/-- The loop `for ( per = 1; per < modeltime->getmaxper(); per++ )` of
`Scenario::run`, entered with the counter at `per`: the calls it issues and the
value of `per` when it exits. -/
def timeLoop (d : Driver) (per : Int) : List Event × Int :=
  if per < d.modeltime.maxper then
    (loopBody d per ++ (timeLoop d (per + 1)).1, (timeLoop d (per + 1)).2)
  else
    ([], per)
termination_by (d.modeltime.maxper - per).toNat
decreasing_by all_goals omega

/-- The statements of `Scenario::run` before the loop (source lines 214 to 245),
with `per = 0`. -/
def firstPeriod (d : Driver) : List Event :=
  [ Event.openDebugStream d.conf.xmlDebugFileName ]
  ++ (if d.conf.CalibrationActive then [Event.setupCalibrationMarkets] else [])
  ++ [ Event.initPrices,
       Event.nullDemands 0,
       Event.nullSupplies 0 ]
  ++ toDebugXMLOpen d 0
  ++ [ Event.calc 0,
       Event.updateSummary 0,
       Event.emiss_ind 0,
       Event.getper_to_yr 0,
       Event.endl Sink.cout,
       Event.put Sink.cout
         ("Period " ++ toString (0 : Int) ++ ": " ++ toString (d.modeltime.per_to_yr 0)),
       Event.endl Sink.cout,
       Event.put Sink.cout "Period 0 not solved",
       Event.endl Sink.cout,
       Event.getper_to_yr 0,
       Event.put Sink.logfile
         ("Period:  " ++ toString (0 : Int) ++ "  Year:  "
           ++ toString (d.modeltime.per_to_yr 0)),
       Event.endl Sink.logfile ]
  ++ (if d.conf.PrintSectorDependencies then printSectorDependencies else [])

/-- The statements of `Scenario::run` after the loop (source lines 280 to 292);
`per` is the value of the loop counter at loop exit. -/
def afterLoop (d : Driver) (per : Int) : List Event :=
  toDebugXMLClose per
  ++ [ Event.calculateEmissionsTotals,
       Event.writeClimatData ]
  ++ (if d.haveFortran then
        [ Event.endl Sink.cout,
          Event.put Sink.cout "Calling CLIMAT() ",
          Event.endl Sink.cout,
          Event.CLIMAT,
          Event.put Sink.cout "Finished with CLIMAT()",
          Event.endl Sink.cout ]
      else [])
  ++ [ Event.closeDebugStream ]

/-- Member `Scenario::run()`: the calls it issues, in program order. -/
def run (d : Driver) : List Event :=
  firstPeriod d ++ (timeLoop d 1).1 ++ afterLoop d (timeLoop d 1).2

end Scenario

/-! ## The periods of the loop -/

/-- The periods `per, per + 1, ..., maxper - 1`, in increasing order (empty
when `maxper <= per`). -/
def periodsFrom (per maxper : Int) : List Int :=
  (List.range (maxper - per).toNat).map (fun (i : Nat) => per + (i : Int))

/-- The periods `1, 2, ..., maxper - 1`, in increasing order. -/
def loopPeriods (maxper : Int) : List Int :=
  periodsFrom 1 maxper

/-! ## `Scenario::XMLParse` -/

/-- A child `curr` of the scenario node, as `Scenario::XMLParse` reads it:
`XMLHelper<string>::safeTranscode( curr->getNodeName() )` and
`XMLHelper<string>::getValueString( curr )`.  The collaborators that parse a
child (`Modeltime::XMLParse`, `World::XMLParse`) receive the whole node. -/
structure DOMNode where
  nodeName : String
  valueString : String
  deriving DecidableEq, Repr

/-- The node passed to `Scenario::XMLParse`: its `name` attribute
(`XMLHelper<string>::getAttrString( node, "name" )`) and its child nodes. -/
structure ScenarioNode where
  nameAttr : String
  children : List DOMNode

/-- The calls `Scenario::XMLParse` makes on `Modeltime` and `World`. -/
inductive ParseCall
  /-- Call `new Modeltime()` -/
  | newModeltime
  /-- Call `modeltime->XMLParse( curr )` -/
  | modeltimeXMLParse (curr : DOMNode)
  /-- Call `modeltime->set()` -/
  | modeltimeSet
  /-- Call `new World()` -/
  | newWorld
  /-- Call `world->XMLParse( curr )` -/
  | worldXMLParse (curr : DOMNode)
  deriving DecidableEq, Repr

/-- The code of `Modeltime` and `World` that `Scenario::XMLParse` calls; both
classes are defined outside `scenario.cpp`, so their effect is a parameter. -/
structure ParseDeps (M W : Type) where
  newModeltime : M
  modeltimeXMLParse : DOMNode → M → M
  modeltimeSet : M → M
  newWorld : W
  worldXMLParse : DOMNode → W → W

/-- The data members of `Scenario`; a null pointer is `none`. -/
structure Scenario (M W K : Type) where
  name : String
  scenarioSummary : String
  modeltime : Option M
  world : Option W
  marketplace : K

/-- The state `Scenario::XMLParse` works on: the object itself, the rows
written to `cout`, and the calls made on `Modeltime` and `World` so far. -/
structure ParseState (M W K : Type) where
  scenario : Scenario M W K
  cout : List String
  calls : List ParseCall

/-- The row written for a `modeltime` child when a `Modeltime` already exists. -/
def modeltimeDiagnostic : String :=
  "Modeltime information cannot be modified in a scenario add-on."

/-- One iteration of the loop over the children in `Scenario::XMLParse`
(source lines 99 to 128). -/
def XMLParseChild {M W K : Type} (D : ParseDeps M W) (s : ParseState M W K)
    (curr : DOMNode) : ParseState M W K :=
  if curr.nodeName = "#text" then
    s
  else if curr.nodeName = "summary" then
    { s with scenario := { s.scenario with scenarioSummary := curr.valueString } }
  else if curr.nodeName = "modeltime" then
    match s.scenario.modeltime with
    | none =>
      { s with
        scenario :=
          { s.scenario with
            modeltime := some (D.modeltimeSet (D.modeltimeXMLParse curr D.newModeltime)) }
        calls := s.calls ++ [ParseCall.newModeltime, ParseCall.modeltimeXMLParse curr,
          ParseCall.modeltimeSet] }
    | some _ =>
      { s with cout := s.cout ++ [modeltimeDiagnostic] }
  else if curr.nodeName = "world" then
    match s.scenario.world with
    | none =>
      { s with
        scenario := { s.scenario with world := some (D.worldXMLParse curr D.newWorld) }
        calls := s.calls ++ [ParseCall.newWorld, ParseCall.worldXMLParse curr] }
    | some w =>
      { s with
        scenario := { s.scenario with world := some (D.worldXMLParse curr w) }
        calls := s.calls ++ [ParseCall.worldXMLParse curr] }
  else
    { s with
      cout := s.cout
        ++ ["Unrecognized text string: " ++ curr.nodeName ++ " found while parsing scenario."] }

/-- The loop over the children in `Scenario::XMLParse`. -/
def XMLParseChildren {M W K : Type} (D : ParseDeps M W) (children : List DOMNode)
    (s : ParseState M W K) : ParseState M W K :=
  children.foldl (XMLParseChild D) s

/-- Member `Scenario::XMLParse( node )`: the name is set from the attribute, then the
children are processed in document order. -/
def XMLParse {M W K : Type} (D : ParseDeps M W) (node : ScenarioNode)
    (s : ParseState M W K) : ParseState M W K :=
  XMLParseChildren D node.children
    { s with scenario := { s.scenario with name := node.nameAttr } }

/-- Is the tag of the child one of `summary`, `modeltime`, `world`? -/
def DOMNode.isRecognized (curr : DOMNode) : Bool :=
  curr.nodeName == "summary" || curr.nodeName == "modeltime" || curr.nodeName == "world"

/-- A stand-in for `Modeltime` and `World`: a `Modeltime` is the list of nodes
parsed into it followed by a marker once `set()` ran, a `World` the list of
nodes parsed into it. -/
def demoDeps : ParseDeps (List String) (List String) :=
  { newModeltime := []
    modeltimeXMLParse := fun curr m => m ++ [curr.valueString]
    modeltimeSet := fun m => m ++ ["set"]
    newWorld := []
    worldXMLParse := fun curr w => w ++ [curr.valueString] }

/-- A freshly constructed `Scenario`: `world = 0`, `modeltime = 0`, a new
`Marketplace`. -/
def demoFresh : ParseState (List String) (List String) Unit :=
  { scenario :=
      { name := "", scenarioSummary := "", modeltime := none, world := none, marketplace := () }
    cout := []
    calls := [] }

/-- A scenario whose `Modeltime` has been parsed and set. -/
def demoParsed : ParseState (List String) (List String) Unit :=
  XMLParseChild demoDeps demoFresh { nodeName := "modeltime", valueString := "base periods" }

/-! ## Observations on a list of calls -/

/-- The arguments of the `marketplace->solve( per )` calls, in program order. -/
def solvePeriods (tr : List Event) : List Int :=
  tr.filterMap (fun e => match e with
    | Event.solve p => some p
    | _ => none)

/-- The arguments of the `world->calc( per )` calls, in program order. -/
def calcPeriods (tr : List Event) : List Int :=
  tr.filterMap (fun e => match e with
    | Event.calc p => some p
    | _ => none)

/-- The period a call is keyed by: its `per` / `period` argument, when it has one. -/
def Event.period : Event → Option Int
  | Event.nullDemands p => some p
  | Event.nullSupplies p => some p
  | Event.storeto_last p => some p
  | Event.init_to_last p => some p
  | Event.initCalc p => some p
  | Event.calc p => some p
  | Event.solve p => some p
  | Event.updateSummary p => some p
  | Event.emiss_ind p => some p
  | Event.getper_to_yr p => some p
  | Event.modeltimeToDebugXML p => some p
  | Event.worldToDebugXML p => some p
  | Event.worldPrintGraphs p => some p
  | _ => none

/-- Is the call one of the nine operations of a steady-state step
(`nullDemands`, `nullSupplies`, `storeto_last`, `init_to_last`, `initCalc`,
`calc`, `solve`, `updateSummary`, `emiss_ind`), issued for period `p`? -/
def Event.isStepOp (p : Int) : Event → Bool
  | Event.nullDemands q => q == p
  | Event.nullSupplies q => q == p
  | Event.storeto_last q => q == p
  | Event.init_to_last q => q == p
  | Event.initCalc q => q == p
  | Event.calc q => q == p
  | Event.solve q => q == p
  | Event.updateSummary q => q == p
  | Event.emiss_ind q => q == p
  | _ => false

/-- The nine operations of a steady-state step for period `p`, in the order
reset, carryover, calculation, solve, summarize. -/
def stepOps (p : Int) : List Event :=
  [ Event.nullDemands p, Event.nullSupplies p, Event.storeto_last p,
    Event.init_to_last p, Event.initCalc p, Event.calc p, Event.solve p,
    Event.updateSummary p, Event.emiss_ind p ]

/-- Is the call a member function of `Marketplace` or of `World`? -/
def Event.isMarketOrWorldOp : Event → Bool
  | Event.setupCalibrationMarkets => true
  | Event.initPrices => true
  | Event.nullDemands _ => true
  | Event.nullSupplies _ => true
  | Event.storeto_last _ => true
  | Event.init_to_last _ => true
  | Event.initCalc _ => true
  | Event.calc _ => true
  | Event.solve _ => true
  | Event.updateSummary _ => true
  | Event.emiss_ind _ => true
  | Event.worldToDebugXML _ => true
  | Event.worldPrintSectorDependencies => true
  | Event.worldPrintGraphs _ => true
  | Event.calculateEmissionsTotals => true
  | _ => false

/-- Does the call write to the debug stream or move its indentation? -/
def Event.onDebugTrace : Event → Bool
  | Event.put out _ => out == Sink.xmlDebugStream
  | Event.endl out => out == Sink.xmlDebugStream
  | Event.writeTabs out => out == Sink.xmlDebugStream
  | Event.increaseIndent => true
  | Event.decreaseIndent => true
  | Event.modeltimeToDebugXML _ => true
  | Event.worldToDebugXML _ => true
  | _ => false

/-- The calls that make up the debug trace, in program order. -/
def debugTrace (tr : List Event) : List Event :=
  tr.filter Event.onDebugTrace

/-- The periods of the per-period blocks (`world->toDebugXML( per, out )`) of
the debug trace, in program order. -/
def debugBlockPeriods (tr : List Event) : List Int :=
  tr.filterMap (fun e => match e with
    | Event.worldToDebugXML p => some p
    | _ => none)

/-- Modelled from the spec: `Tabs` is not defined in `scenario.cpp`; the
specification calls it a shared tab-depth counter.  `increaseIndent` adds one
level, `decreaseIndent` removes one, and the blocks the collaborators write
(`Modeltime::toDebugXML`, `World::toDebugXML`) are well nested, so they leave
the depth as they found it.  `tabDepth depth tr` is the depth after the calls
`tr`, starting from `depth`. -/
def tabDepth (depth : Nat) : List Event → Nat
  | [] => depth
  | Event.increaseIndent :: tr => tabDepth (depth + 1) tr
  | Event.decreaseIndent :: tr => tabDepth (depth - 1) tr
  | _ :: tr => tabDepth depth tr

/-- The rows of stream `out` completed by the calls `tr`: a row is the text put
on the stream between two consecutive `endl`; `cur` is the text of the row under
construction when `tr` starts. -/
def rowsFrom (out : Sink) : List Event → String → List String
  | [], _ => []
  | Event.put o text :: tr, cur =>
      if o = out then rowsFrom out tr (cur ++ text) else rowsFrom out tr cur
  | Event.endl o :: tr, cur =>
      if o = out then cur :: rowsFrom out tr "" else rowsFrom out tr cur
  | _ :: tr, cur => rowsFrom out tr cur

/-- The row under construction on stream `out` after the calls `tr`. -/
def pendingRow (out : Sink) : List Event → String → String
  | [], cur => cur
  | Event.put o text :: tr, cur =>
      if o = out then pendingRow out tr (cur ++ text) else pendingRow out tr cur
  | Event.endl o :: tr, cur =>
      if o = out then pendingRow out tr "" else pendingRow out tr cur
  | _ :: tr, cur => pendingRow out tr cur

/-- The rows the calls `tr` write to stream `out`, starting on an empty row. -/
def rows (out : Sink) (tr : List Event) : List String :=
  rowsFrom out tr ""

/-- The header row of the supply/demand trace: five times the column group
`Market,Name,Price,Supply,Demand,`. -/
def sdHeaderRow : String :=
  Scenario.sdHeaderGroup ++ Scenario.sdHeaderGroup ++ Scenario.sdHeaderGroup
    ++ Scenario.sdHeaderGroup ++ Scenario.sdHeaderGroup

/-- The title row the loop writes to `sdcurvefile` for period `per`. -/
def sdTitleRow (d : Driver) (per : Int) : String :=
  "Period " ++ toString per ++ ": " ++ toString (d.modeltime.per_to_yr per)

/-! ## The market state behind the calls -/

/-- The registers of one good in one period: price, supply and demand.  The
value type `V` is left open (the source uses floating point numbers; the
properties below only copy values and compare them with zero). -/
structure Registers (V : Type) where
  price : V
  supply : V
  demand : V
  deriving DecidableEq, Repr

/-- Modelled from the spec: the bodies of `Marketplace` and `World` are not in
`scenario.cpp`.  An interpretation gives the effect `step` of each call of the
driver on a simulation state `σ`, and reads the Market State of the
specification off it: `regs s g p` are the registers of good `g` in period `p`,
`last s g` is the "last period" shadow copy of good `g`, `zero` is the value of
a zeroed register. -/
structure Interp (σ V : Type) where
  step : Event → σ → σ
  regs : σ → Nat → Int → Registers V
  last : σ → Nat → Registers V
  zero : V

/-- The simulation state after the calls `tr`, issued in order from state `s`. -/
def exec {σ V : Type} (I : Interp σ V) (tr : List Event) (s : σ) : σ :=
  tr.foldl (fun s e => I.step e s) s

/-- The calls the specification treats as reporting only: summaries and
emissions read the model, and the log, debug, graph and dependency outputs are
write-only sinks. -/
def Event.isReporting : Event → Bool
  | Event.updateSummary _ => true
  | Event.emiss_ind _ => true
  | Event.getper_to_yr _ => true
  | Event.put _ _ => true
  | Event.endl _ => true
  | Event.writeTabs _ => true
  | Event.increaseIndent => true
  | Event.decreaseIndent => true
  | Event.modeltimeToDebugXML _ => true
  | Event.worldToDebugXML _ => true
  | Event.getLogger _ => true
  | Event.worldPrintSectorDependencies => true
  | Event.graphOpen _ => true
  | Event.checkIsOpen _ => true
  | Event.worldPrintGraphs _ => true
  | Event.graphClose => true
  | Event.openDebugStream _ => true
  | Event.closeDebugStream => true
  | _ => false

/-- The calls that, by the specification, leave the registers of period `q`
alone: the reporting calls, and the zeroing of the registers of another
period. -/
def Event.keepsPeriod (q : Int) (e : Event) : Bool :=
  e.isReporting ||
    match e with
    | Event.nullDemands p => p != q
    | Event.nullSupplies p => p != q
    | _ => false

/-- Modelled from the spec: what the specification says of the collaborators
about carryover.  `storeto_last( p )` copies the registers of period `p - 1`
into the "last period" shadow ("Copy period p-1 converged Market State into
the last period shadow"); reporting calls do not change the Market State
("neither affects simulation state", "read by updateSummary/emiss_ind");
`nullDemands( p )` and `nullSupplies( p )` only touch the registers of period
`p` ("Zero demand and supply registers for period p"). -/
structure CarryoverContract {σ V : Type} (I : Interp σ V) : Prop where
  storeto_last_copies : ∀ (p : Int) (s : σ) (g : Nat),
    I.last (I.step (Event.storeto_last p) s) g = I.regs s g (p - 1)
  keeps : ∀ (e : Event) (q : Int) (s : σ) (g : Nat),
    e.keepsPeriod q = true → I.regs (I.step e s) g q = I.regs s g q

/-- Modelled from the spec: a Market State with integer registers, "per-period
registers of price, supply and demand for every good, plus a last period shadow
copy used for carryover". -/
structure Marketplace where
  regs : Nat → Int → Registers Int
  last : Nat → Registers Int

/-- Modelled from the spec: the effect of the calls on `Marketplace`.  The
reset zeroes the registers of the period, `storeto_last` fills the shadow from
the previous period, `init_to_last` seeds the price of the period from the
shadow ("working state" read as the starting price; `Marketplace.stepSeedAll`
below reads it to the letter).  `calc` and `solve` stand for the World Model and the solver, whose
arithmetic is out of scope: here every good gets one more unit of demand and
of supply per evaluation, and a solve moves the price by the excess demand. -/
def Marketplace.step : Event → Marketplace → Marketplace
  | Event.nullDemands p, m =>
      { m with regs := fun g q =>
          if q = p then { m.regs g q with demand := 0 } else m.regs g q }
  | Event.nullSupplies p, m =>
      { m with regs := fun g q =>
          if q = p then { m.regs g q with supply := 0 } else m.regs g q }
  | Event.storeto_last p, m =>
      { m with last := fun g => m.regs g (p - 1) }
  | Event.init_to_last p, m =>
      { m with regs := fun g q =>
          if q = p then { m.regs g q with price := (m.last g).price } else m.regs g q }
  | Event.calc p, m =>
      { m with regs := fun g q =>
          if q = p then
            { m.regs g q with supply := (m.regs g q).supply + 1,
                              demand := (m.regs g q).demand + 1 }
          else m.regs g q }
  | Event.solve p, m =>
      { m with regs := fun g q =>
          if q = p then
            { m.regs g q with
              price := (m.regs g q).price + ((m.regs g q).demand - (m.regs g q).supply) }
          else m.regs g q }
  | _, m => m

/-- The interpretation of the calls on `Marketplace`. -/
def marketInterp : Interp Marketplace Int :=
  { step := Marketplace.step
    regs := fun m => m.regs
    last := fun m => m.last
    zero := 0 }

/-- A run of three periods (`getmaxper() = 3`), calibration disabled, no
optional export. -/
def demo3 : Driver :=
  { conf :=
      { xmlDebugFileName := "debug.xml"
        CalibrationActive := false
        PrintSectorDependencies := false
        PrintDependencyGraphs := false
        dependencyGraphName := "graph" }
    modeltime := { maxper := 3, per_to_yr := fun p => 1975 + 15 * p }
    name := "base"
    dateString := "2003-01-01T00:00:00-00:00"
    haveFortran := false }

/-- The run `demo3` with `CalibrationActive` set. -/
def demo3Calibrated : Driver :=
  { demo3 with conf := { demo3.conf with CalibrationActive := true } }

theorem periodsFrom_of_not_lt {per maxper : Int} (h : ¬ per < maxper) :
    periodsFrom per maxper = [] := by
  have h0 : (maxper - per).toNat = 0 := by omega
  simp [periodsFrom, h0]

theorem periodsFrom_of_lt {per maxper : Int} (h : per < maxper) :
    periodsFrom per maxper = per :: periodsFrom (per + 1) maxper := by
  have h1 : (maxper - per).toNat = (maxper - (per + 1)).toNat + 1 := by omega
  simp only [periodsFrom, h1, List.range_succ_eq_map, List.map_cons, List.map_map]
  refine congrArg₂ _ (by simp) ?_
  apply List.map_congr_left
  intro i _
  simp only [Function.comp, Nat.succ_eq_add_one]
  push_cast
  ring

theorem mem_periodsFrom {per maxper p : Int} :
    p ∈ periodsFrom per maxper ↔ per ≤ p ∧ p < maxper := by
  simp only [periodsFrom, List.mem_map, List.mem_range]
  constructor
  · rintro ⟨i, hi, rfl⟩
    omega
  · rintro ⟨h1, h2⟩
    exact ⟨(p - per).toNat, by omega, by omega⟩

theorem periodsFrom_pairwise (per maxper : Int) :
    (periodsFrom per maxper).Pairwise (fun a b => a < b) := by
  simp only [periodsFrom, List.pairwise_map]
  exact (List.pairwise_lt_range _).imp (by intro a b hab; omega)

theorem periodsFrom_nodup (per maxper : Int) : (periodsFrom per maxper).Nodup :=
  (periodsFrom_pairwise per maxper).imp (fun h => ne_of_lt h)

theorem length_periodsFrom (per maxper : Int) :
    (periodsFrom per maxper).length = (maxper - per).toNat := by
  simp [periodsFrom]

/-! ## The loop, unrolled -/

theorem timeLoop_fst (d : Driver) (per : Int) :
    (Scenario.timeLoop d per).1
      = (periodsFrom per d.modeltime.maxper).flatMap (Scenario.loopBody d) := by
  induction per using Scenario.timeLoop.induct d with
  | case1 per h ih =>
    rw [Scenario.timeLoop, if_pos h, periodsFrom_of_lt h, List.flatMap_cons, ih]
  | case2 per h =>
    rw [Scenario.timeLoop, if_neg h, periodsFrom_of_not_lt h]
    rfl

theorem timeLoop_snd (d : Driver) (per : Int) :
    (Scenario.timeLoop d per).2 = max per d.modeltime.maxper := by
  induction per using Scenario.timeLoop.induct d with
  | case1 per h ih =>
    rw [Scenario.timeLoop, if_pos h]
    simp only [ih]
    omega
  | case2 per h =>
    rw [Scenario.timeLoop, if_neg h]
    simp only
    omega

/-- The calls of `Scenario::run`, with the loop unrolled over its periods. -/
theorem run_eq (d : Driver) :
    Scenario.run d
      = Scenario.firstPeriod d
        ++ (loopPeriods d.modeltime.maxper).flatMap (Scenario.loopBody d)
        ++ Scenario.afterLoop d (max 1 d.modeltime.maxper) := by
  simp only [Scenario.run, timeLoop_fst, timeLoop_snd, loopPeriods]

theorem periodsFrom_split {a p n : Int} (h1 : a ≤ p) (h2 : p ≤ n) :
    periodsFrom a n = periodsFrom a p ++ periodsFrom p n := by
  have h : (n - a).toNat = (p - a).toNat + (n - p).toNat := by omega
  simp only [periodsFrom, h, List.range_add, List.map_append, List.map_map]
  congr 1
  apply List.map_congr_left
  intro i _
  simp only [Function.comp]
  push_cast
  omega

/-- The loop periods around a period `p` of the loop. -/
theorem loopPeriods_split {p n : Int} (h1 : 1 ≤ p) (h2 : p < n) :
    loopPeriods n = periodsFrom 1 p ++ p :: periodsFrom (p + 1) n := by
  rw [loopPeriods, periodsFrom_split h1 (le_of_lt h2), periodsFrom_of_lt h2]

/-- The calls of `Scenario::run`, split around the step of period `p`. -/
theorem run_split (d : Driver) {p : Int} (h1 : 1 ≤ p) (h2 : p < d.modeltime.maxper) :
    Scenario.run d
      = Scenario.firstPeriod d
        ++ (periodsFrom 1 p).flatMap (Scenario.loopBody d)
        ++ Scenario.loopBody d p
        ++ (periodsFrom (p + 1) d.modeltime.maxper).flatMap (Scenario.loopBody d)
        ++ Scenario.afterLoop d (max 1 d.modeltime.maxper) := by
  rw [run_eq, loopPeriods_split h1 h2]
  simp [List.flatMap_append, List.flatMap_cons, List.append_assoc]

theorem filterMap_flatMap_singleton {α β : Type} (f : α → List β) (g : β → Option α)
    (h : ∀ a, (f a).filterMap g = [a]) (l : List α) :
    (l.flatMap f).filterMap g = l := by
  induction l with
  | nil => rfl
  | cons a l ih => rw [List.flatMap_cons, List.filterMap_append, h, ih]; rfl

theorem filter_flatMap_nil {α β : Type} (f : α → List β) (g : β → Bool) (l : List α)
    (h : ∀ a ∈ l, (f a).filter g = []) :
    (l.flatMap f).filter g = [] := by
  induction l with
  | nil => rfl
  | cons a l ih =>
    rw [List.flatMap_cons, List.filter_append, h a (List.mem_cons_self a l),
      ih (fun b hb => h b (List.mem_cons_of_mem a hb))]
    rfl

theorem count_flatMap_zero {α β : Type} [DecidableEq β] (f : α → List β) (e : β)
    (l : List α) (h : ∀ a ∈ l, (f a).count e = 0) :
    (l.flatMap f).count e = 0 := by
  induction l with
  | nil => rfl
  | cons a l ih =>
    rw [List.flatMap_cons, List.count_append, h a (List.mem_cons_self a l),
      ih (fun b hb => h b (List.mem_cons_of_mem a hb))]

theorem solvePeriods_firstPeriod (d : Driver) :
    solvePeriods (Scenario.firstPeriod d) = [] := by
  cases hc : d.conf.CalibrationActive <;> cases hs : d.conf.PrintSectorDependencies <;>
    simp [solvePeriods, Scenario.firstPeriod, Scenario.toDebugXMLOpen,
      Scenario.printSectorDependencies, hc, hs]

theorem solvePeriods_loopBody (d : Driver) (p : Int) :
    solvePeriods (Scenario.loopBody d p) = [p] := by
  cases hg : d.conf.PrintDependencyGraphs <;>
    simp [solvePeriods, Scenario.loopBody, Scenario.printGraphs, hg]

theorem solvePeriods_afterLoop (d : Driver) (p : Int) :
    solvePeriods (Scenario.afterLoop d p) = [] := by
  cases hf : d.haveFortran <;>
    simp [solvePeriods, Scenario.afterLoop, Scenario.toDebugXMLClose, hf]

theorem solvePeriods_run (d : Driver) :
    solvePeriods (Scenario.run d) = loopPeriods d.modeltime.maxper := by
  have h := filterMap_flatMap_singleton (Scenario.loopBody d) _
    (solvePeriods_loopBody d) (loopPeriods d.modeltime.maxper)
  have h1 := solvePeriods_firstPeriod d
  have h2 := solvePeriods_afterLoop d (max 1 d.modeltime.maxper)
  unfold solvePeriods at h h1 h2 ⊢
  rw [run_eq, List.filterMap_append, List.filterMap_append, h, h1, h2]
  simp

/-- C1: for every period count `n = getmaxper()`, the periods `Scenario::run`
passes to `marketplace->solve` are exactly `1, 2, ..., n - 1` in increasing
order: the list of `solve` arguments is strictly increasing, a period is in it
exactly when `1 <= p < n`, each such period occurs exactly once, period `0` is
never passed, and for `n <= 1` there is no `solve` call at all. -/
theorem solve_periods_exact (d : Driver) :
    solvePeriods (Scenario.run d) = loopPeriods d.modeltime.maxper
    ∧ (solvePeriods (Scenario.run d)).Pairwise (fun a b => a < b)
    ∧ (∀ p, p ∈ solvePeriods (Scenario.run d) ↔ 1 ≤ p ∧ p < d.modeltime.maxper)
    ∧ (∀ p, 1 ≤ p → p < d.modeltime.maxper →
        (solvePeriods (Scenario.run d)).count p = 1
        ∧ (Scenario.run d).count (Event.solve p) = 1)
    ∧ (Scenario.run d).count (Event.solve 0) = 0
    ∧ (d.modeltime.maxper ≤ 1 → solvePeriods (Scenario.run d) = []) := by
  have hrun := solvePeriods_run d
  have hcount : ∀ p : Int, (Scenario.run d).count (Event.solve p)
      = (solvePeriods (Scenario.run d)).count p := by
    intro p
    unfold solvePeriods
    generalize Scenario.run d = tr
    induction tr with
    | nil => rfl
    | cons e tr ih =>
      cases e <;> simp [List.filterMap_cons, List.count_cons, ih]
  have hmem : ∀ p, p ∈ solvePeriods (Scenario.run d) ↔ 1 ≤ p ∧ p < d.modeltime.maxper := by
    intro p
    rw [hrun, loopPeriods]
    exact mem_periodsFrom
  refine ⟨hrun, ?_, hmem, ?_, ?_, ?_⟩
  · rw [hrun]
    exact periodsFrom_pairwise _ _
  · intro p h1 h2
    have hc : (solvePeriods (Scenario.run d)).count p = 1 := by
      rw [hrun]
      exact List.count_eq_one_of_mem (periodsFrom_nodup _ _) (mem_periodsFrom.2 ⟨h1, h2⟩)
    exact ⟨hc, (hcount p).trans hc⟩
  · rw [hcount, List.count_eq_zero]
    intro h0
    have := (hmem 0).1 h0
    omega
  · intro hn
    rw [hrun, loopPeriods]
    exact periodsFrom_of_not_lt (by omega)

/-- Witness of `solve_periods_exact`: with three periods, `solve` is called for
periods 1 and 2, once each. -/
theorem solve_periods_exact_witness :
    solvePeriods (Scenario.run demo3) = [1, 2]
    ∧ (Scenario.run demo3).count (Event.solve 2) = 1 :=
  ⟨(solve_periods_exact demo3).1.trans (by decide),
   ((solve_periods_exact demo3).2.2.2.1 2 (by decide) (by decide)).2⟩

/-! ## Order of the operations of one step -/

theorem period_mem_firstPeriod (d : Driver) :
    ∀ e ∈ Scenario.firstPeriod d, e.period = none ∨ e.period = some 0 := by
  cases hc : d.conf.CalibrationActive <;> cases hs : d.conf.PrintSectorDependencies <;>
    simp [Scenario.firstPeriod, Scenario.toDebugXMLOpen, Scenario.printSectorDependencies,
      Event.period, hc, hs]

theorem period_mem_loopBody (d : Driver) (q : Int) :
    ∀ e ∈ Scenario.loopBody d q, e.period = none ∨ e.period = some q := by
  cases hg : d.conf.PrintDependencyGraphs <;>
    simp [Scenario.loopBody, Scenario.printGraphs, Event.period, hg]

theorem stepOps_firstPeriod (d : Driver) {p : Int} (hp : 1 ≤ p) :
    (Scenario.firstPeriod d).filter (Event.isStepOp p) = [] := by
  have h0 : ¬ (0 : Int) = p := by omega
  cases hc : d.conf.CalibrationActive <;> cases hs : d.conf.PrintSectorDependencies <;>
    simp [Scenario.firstPeriod, Scenario.toDebugXMLOpen, Scenario.printSectorDependencies,
      Event.isStepOp, List.filter_cons, hc, hs, h0]

theorem stepOps_loopBody_self (d : Driver) (p : Int) :
    (Scenario.loopBody d p).filter (Event.isStepOp p) = stepOps p := by
  cases hg : d.conf.PrintDependencyGraphs <;>
    simp [Scenario.loopBody, Scenario.printGraphs, Event.isStepOp, List.filter_cons,
      stepOps, hg]

theorem stepOps_loopBody_other (d : Driver) {p q : Int} (h : q ≠ p) :
    (Scenario.loopBody d q).filter (Event.isStepOp p) = [] := by
  cases hg : d.conf.PrintDependencyGraphs <;>
    simp [Scenario.loopBody, Scenario.printGraphs, Event.isStepOp, List.filter_cons, hg, h]

theorem stepOps_afterLoop (d : Driver) (p q : Int) :
    (Scenario.afterLoop d q).filter (Event.isStepOp p) = [] := by
  cases hf : d.haveFortran <;>
    simp [Scenario.afterLoop, Scenario.toDebugXMLClose, Event.isStepOp, List.filter_cons, hf]

/-- The body of the loop, cut at its `world->emiss_ind( per )` call. -/
theorem loopBody_cut (d : Driver) (p : Int) :
    Scenario.loopBody d p
      = (Scenario.loopBody d p).take 24 ++ Event.emiss_ind p
          :: (Scenario.loopBody d p).drop 25 := by
  cases hg : d.conf.PrintDependencyGraphs <;>
    simp [Scenario.loopBody, hg]

/-- C2: for every run and every period `p` with `1 <= p < maxPeriod`, the calls
of `Scenario::run` among `nullDemands(p)`, `nullSupplies(p)`, `storeto_last(p)`,
`init_to_last(p)`, `initCalc(p)`, `calc(p)`, `solve(p)`, `updateSummary(p)`,
`emiss_ind(p)` are exactly these nine, in this order; each is issued exactly
once in the whole run; and no call keyed by period `p + 1` is issued before
`emiss_ind(p)`. -/
theorem step_operations_in_order (d : Driver) (p : Int)
    (h1 : 1 ≤ p) (h2 : p < d.modeltime.maxper) :
    (Scenario.run d).filter (Event.isStepOp p) = stepOps p
    ∧ (∀ e ∈ stepOps p, (Scenario.run d).count e = 1)
    ∧ ∃ pre post, Scenario.run d = pre ++ Event.emiss_ind p :: post
        ∧ ∀ e ∈ pre, e.period ≠ some (p + 1) := by
  have hfilter : (Scenario.run d).filter (Event.isStepOp p) = stepOps p := by
    rw [run_split d h1 h2]
    simp only [List.filter_append]
    rw [stepOps_firstPeriod d h1, stepOps_loopBody_self, stepOps_afterLoop,
      filter_flatMap_nil _ _ _ (fun q hq => stepOps_loopBody_other d
        (by have := (mem_periodsFrom.1 hq).2; omega)),
      filter_flatMap_nil _ _ _ (fun q hq => stepOps_loopBody_other d
        (by have := (mem_periodsFrom.1 hq).1; omega))]
    simp
  refine ⟨hfilter, ?_, ?_⟩
  · intro e he
    have hs : Event.isStepOp p e = true := by
      simp only [stepOps, List.mem_cons, List.mem_singleton, List.not_mem_nil, or_false] at he
      rcases he with h | h | h | h | h | h | h | h | h <;> subst h <;> simp [Event.isStepOp]
    rw [← List.count_filter hs, hfilter]
    simp only [stepOps, List.mem_cons, List.mem_singleton, List.not_mem_nil, or_false] at he
    rcases he with h | h | h | h | h | h | h | h | h <;> subst h <;> simp [stepOps]
  · refine ⟨Scenario.firstPeriod d ++ (periodsFrom 1 p).flatMap (Scenario.loopBody d)
        ++ (Scenario.loopBody d p).take 24,
      (Scenario.loopBody d p).drop 25
        ++ (periodsFrom (p + 1) d.modeltime.maxper).flatMap (Scenario.loopBody d)
        ++ Scenario.afterLoop d (max 1 d.modeltime.maxper), ?_, ?_⟩
    · conv_lhs => rw [run_split d h1 h2, loopBody_cut d p]
      simp [List.append_assoc]
    · intro e he
      simp only [List.mem_append, List.mem_flatMap] at he
      rcases he with (he | ⟨q, hq, he⟩) | he
      · rcases period_mem_firstPeriod d e he with h | h <;> rw [h]
        · simp
        · simp only [ne_eq, Option.some.injEq]; omega
      · have hq2 := (mem_periodsFrom.1 hq).2
        rcases period_mem_loopBody d q e he with h | h <;> rw [h]
        · simp
        · simp only [ne_eq, Option.some.injEq]; omega
      · rcases period_mem_loopBody d p e (List.mem_of_mem_take he) with h | h <;> rw [h]
        · simp
        · simp only [ne_eq, Option.some.injEq]; omega

/-- Witness of `step_operations_in_order`: period 2 of a run of three periods. -/
theorem step_operations_in_order_witness :
    (Scenario.run demo3).filter (Event.isStepOp 2) = stepOps 2 :=
  (step_operations_in_order demo3 2 (by decide) (by decide)).1

/-! ## Calibration setup and price initialisation -/

theorem count_loopBody_initPrices (d : Driver) (q : Int) :
    (Scenario.loopBody d q).count Event.initPrices = 0 := by
  cases hg : d.conf.PrintDependencyGraphs <;>
    simp [Scenario.loopBody, Scenario.printGraphs, List.count_cons, hg]

theorem count_loopBody_setupCalibrationMarkets (d : Driver) (q : Int) :
    (Scenario.loopBody d q).count Event.setupCalibrationMarkets = 0 := by
  cases hg : d.conf.PrintDependencyGraphs <;>
    simp [Scenario.loopBody, Scenario.printGraphs, List.count_cons, hg]

theorem count_afterLoop_initPrices (d : Driver) (q : Int) :
    (Scenario.afterLoop d q).count Event.initPrices = 0 := by
  cases hf : d.haveFortran <;>
    simp [Scenario.afterLoop, Scenario.toDebugXMLClose, List.count_cons, hf]

theorem count_afterLoop_setupCalibrationMarkets (d : Driver) (q : Int) :
    (Scenario.afterLoop d q).count Event.setupCalibrationMarkets = 0 := by
  cases hf : d.haveFortran <;>
    simp [Scenario.afterLoop, Scenario.toDebugXMLClose, List.count_cons, hf]

theorem count_firstPeriod_initPrices (d : Driver) :
    (Scenario.firstPeriod d).count Event.initPrices = 1 := by
  cases hc : d.conf.CalibrationActive <;> cases hs : d.conf.PrintSectorDependencies <;>
    simp [Scenario.firstPeriod, Scenario.toDebugXMLOpen, Scenario.printSectorDependencies,
      List.count_cons, hc, hs]

theorem count_firstPeriod_setupCalibrationMarkets (d : Driver) :
    (Scenario.firstPeriod d).count Event.setupCalibrationMarkets
      = if d.conf.CalibrationActive then 1 else 0 := by
  cases hc : d.conf.CalibrationActive <;> cases hs : d.conf.PrintSectorDependencies <;>
    simp [Scenario.firstPeriod, Scenario.toDebugXMLOpen, Scenario.printSectorDependencies,
      List.count_cons, hc, hs]

/-- The calls of `Scenario::run` when calibration is active: the debug stream is
opened, then the calibration markets are set up, then prices are set. -/
theorem run_calibrated (d : Driver) (h : d.conf.CalibrationActive = true) :
    ∃ post, Scenario.run d
      = [Event.openDebugStream d.conf.xmlDebugFileName]
        ++ Event.setupCalibrationMarkets :: Event.initPrices :: post := by
  refine ⟨[Event.nullDemands 0, Event.nullSupplies 0] ++ Scenario.toDebugXMLOpen d 0
    ++ ((Scenario.firstPeriod d).drop 14
    ++ (Scenario.timeLoop d 1).1 ++ Scenario.afterLoop d (Scenario.timeLoop d 1).2), ?_⟩
  cases hs : d.conf.PrintSectorDependencies <;>
    simp [Scenario.run, Scenario.firstPeriod, Scenario.toDebugXMLOpen, h, hs]

/-- C3: in every run of `Scenario::run`, `initPrices` is called exactly once.
If `CalibrationActive` is true, `world->setupCalibrationMarkets` is called
exactly once, no `Marketplace` or `World` call precedes it, and `initPrices`
comes after it.  If the flag is false it is never called. -/
theorem calibration_once_before_initPrices (d : Driver) :
    (Scenario.run d).count Event.initPrices = 1
    ∧ (d.conf.CalibrationActive = true →
        (Scenario.run d).count Event.setupCalibrationMarkets = 1
        ∧ ∃ pre post, Scenario.run d = pre ++ Event.setupCalibrationMarkets :: post
            ∧ (∀ e ∈ pre, e.isMarketOrWorldOp = false)
            ∧ Event.initPrices ∈ post)
    ∧ (d.conf.CalibrationActive = false →
        (Scenario.run d).count Event.setupCalibrationMarkets = 0) := by
  have hinit : (Scenario.run d).count Event.initPrices = 1 := by
    rw [run_eq, List.count_append, List.count_append, count_firstPeriod_initPrices,
      count_afterLoop_initPrices,
      count_flatMap_zero _ _ _ (fun q _ => count_loopBody_initPrices d q)]
  have hsetup : (Scenario.run d).count Event.setupCalibrationMarkets
      = if d.conf.CalibrationActive then 1 else 0 := by
    rw [run_eq, List.count_append, List.count_append,
      count_firstPeriod_setupCalibrationMarkets, count_afterLoop_setupCalibrationMarkets,
      count_flatMap_zero _ _ _ (fun q _ => count_loopBody_setupCalibrationMarkets d q)]
    simp
  refine ⟨hinit, ?_, ?_⟩
  · intro hc
    refine ⟨by rw [hsetup, hc]; rfl, ?_⟩
    obtain ⟨post, hpost⟩ := run_calibrated d hc
    refine ⟨[Event.openDebugStream d.conf.xmlDebugFileName], Event.initPrices :: post,
      hpost, ?_, List.mem_cons_self _ _⟩
    intro e he
    rw [List.mem_singleton] at he
    subst he
    rfl
  · intro hc
    rw [hsetup, hc]
    rfl

/-- Witness of `calibration_once_before_initPrices`: a calibrated run sets up
its calibration markets once, an uncalibrated one never. -/
theorem calibration_once_before_initPrices_witness :
    (Scenario.run demo3Calibrated).count Event.setupCalibrationMarkets = 1
    ∧ (Scenario.run demo3).count Event.setupCalibrationMarkets = 0 :=
  ⟨((calibration_once_before_initPrices demo3Calibrated).2.1 rfl).1,
   (calibration_once_before_initPrices demo3).2.2 rfl⟩

/-! ## The debug trace -/

theorem tabDepth_append (a b : List Event) (depth : Nat) :
    tabDepth depth (a ++ b) = tabDepth (tabDepth depth a) b := by
  induction a generalizing depth with
  | nil => rfl
  | cons e a ih => cases e <;> simp [tabDepth, ih]

theorem tabDepth_loopBody (d : Driver) (q : Int) (depth : Nat) :
    tabDepth depth (Scenario.loopBody d q) = depth := by
  cases hg : d.conf.PrintDependencyGraphs <;>
    simp [Scenario.loopBody, Scenario.printGraphs, tabDepth, hg]

theorem tabDepth_flatMap_loopBody (d : Driver) (l : List Int) (depth : Nat) :
    tabDepth depth (l.flatMap (Scenario.loopBody d)) = depth := by
  induction l with
  | nil => rfl
  | cons q l ih => rw [List.flatMap_cons, tabDepth_append, tabDepth_loopBody, ih]

theorem tabDepth_firstPeriod (d : Driver) (depth : Nat) :
    tabDepth depth (Scenario.firstPeriod d) = depth + 1 := by
  cases hc : d.conf.CalibrationActive <;> cases hs : d.conf.PrintSectorDependencies <;>
    simp [Scenario.firstPeriod, Scenario.toDebugXMLOpen, Scenario.printSectorDependencies,
      tabDepth, hc, hs]

theorem tabDepth_afterLoop (d : Driver) (q : Int) (depth : Nat) :
    tabDepth (depth + 1) (Scenario.afterLoop d q) = depth := by
  cases hf : d.haveFortran <;>
    simp [Scenario.afterLoop, Scenario.toDebugXMLClose, tabDepth, hf]

theorem debugTrace_firstPeriod (d : Driver) :
    debugTrace (Scenario.firstPeriod d) = Scenario.toDebugXMLOpen d 0 := by
  cases hc : d.conf.CalibrationActive <;> cases hs : d.conf.PrintSectorDependencies <;>
    simp [debugTrace, Scenario.firstPeriod, Scenario.toDebugXMLOpen,
      Scenario.printSectorDependencies, Event.onDebugTrace, List.filter_cons, hc, hs]

theorem debugTrace_loopBody (d : Driver) (q : Int) :
    debugTrace (Scenario.loopBody d q) = [Event.worldToDebugXML q] := by
  cases hg : d.conf.PrintDependencyGraphs <;>
    simp [debugTrace, Scenario.loopBody, Scenario.printGraphs, Event.onDebugTrace,
      List.filter_cons, hg]

theorem debugTrace_afterLoop (d : Driver) (q : Int) :
    debugTrace (Scenario.afterLoop d q) = Scenario.toDebugXMLClose q := by
  cases hf : d.haveFortran <;>
    simp [debugTrace, Scenario.afterLoop, Scenario.toDebugXMLClose, Event.onDebugTrace,
      List.filter_cons, hf]

theorem debugTrace_flatMap_loopBody (d : Driver) (l : List Int) :
    debugTrace (l.flatMap (Scenario.loopBody d)) = l.map Event.worldToDebugXML := by
  induction l with
  | nil => rfl
  | cons q l ih =>
    have h := debugTrace_loopBody d q
    unfold debugTrace at h ih ⊢
    rw [List.flatMap_cons, List.filter_append, h, ih]
    rfl

theorem calcPeriods_firstPeriod (d : Driver) :
    calcPeriods (Scenario.firstPeriod d) = [0] := by
  cases hc : d.conf.CalibrationActive <;> cases hs : d.conf.PrintSectorDependencies <;>
    simp [calcPeriods, Scenario.firstPeriod, Scenario.toDebugXMLOpen,
      Scenario.printSectorDependencies, hc, hs]

theorem calcPeriods_loopBody (d : Driver) (p : Int) :
    calcPeriods (Scenario.loopBody d p) = [p] := by
  cases hg : d.conf.PrintDependencyGraphs <;>
    simp [calcPeriods, Scenario.loopBody, Scenario.printGraphs, hg]

theorem calcPeriods_afterLoop (d : Driver) (p : Int) :
    calcPeriods (Scenario.afterLoop d p) = [] := by
  cases hf : d.haveFortran <;>
    simp [calcPeriods, Scenario.afterLoop, Scenario.toDebugXMLClose, hf]

theorem calcPeriods_run (d : Driver) :
    calcPeriods (Scenario.run d) = 0 :: loopPeriods d.modeltime.maxper := by
  have h := filterMap_flatMap_singleton (Scenario.loopBody d) _
    (calcPeriods_loopBody d) (loopPeriods d.modeltime.maxper)
  have h1 := calcPeriods_firstPeriod d
  have h2 := calcPeriods_afterLoop d (max 1 d.modeltime.maxper)
  unfold calcPeriods at h h1 h2 ⊢
  rw [run_eq, List.filterMap_append, List.filterMap_append, h, h1, h2]
  simp

theorem debugTrace_run (d : Driver) :
    debugTrace (Scenario.run d)
      = Scenario.toDebugXMLOpen d 0
        ++ (loopPeriods d.modeltime.maxper).map Event.worldToDebugXML
        ++ Scenario.toDebugXMLClose (max 1 d.modeltime.maxper) := by
  have h1 := debugTrace_firstPeriod d
  have h2 := debugTrace_flatMap_loopBody d (loopPeriods d.modeltime.maxper)
  have h3 := debugTrace_afterLoop d (max 1 d.modeltime.maxper)
  unfold debugTrace at h1 h2 h3 ⊢
  rw [run_eq, List.filter_append, List.filter_append, h1, h2, h3]

theorem debugBlockPeriods_debugTrace (tr : List Event) :
    debugBlockPeriods (debugTrace tr) = debugBlockPeriods tr := by
  unfold debugBlockPeriods debugTrace
  induction tr with
  | nil => rfl
  | cons e tr ih =>
    cases e <;> simp [List.filter_cons, Event.onDebugTrace, ih] <;> split <;> simp [ih]

theorem rootOpenTag_ne_summary (a b : String) :
    ("<scenario name=\"" ++ a ++ "\" date=\"" ++ b ++ "\">")
      ≠ "<summary>\"Debugging output\"</summary>" := by
  intro h
  have h2 := congrArg (fun s => s.data.take 3) h
  simp at h2

theorem rootOpenTag_ne_rootCloseTag (a b : String) :
    ("<scenario name=\"" ++ a ++ "\" date=\"" ++ b ++ "\">") ≠ "</scenario>" := by
  intro h
  have h2 := congrArg (fun s => s.data.take 2) h
  simp at h2

theorem count_map_worldToDebugXML (l : List Int) (o : Sink) (text : String) :
    (l.map Event.worldToDebugXML).count (Event.put o text) = 0 := by
  rw [List.count_eq_zero]
  intro h
  obtain ⟨q, _, hq⟩ := List.mem_map.1 h
  cases hq

/-- The debug trace of `Scenario::run`, call by call. -/
theorem debugTrace_run_explicit (d : Driver) :
    debugTrace (Scenario.run d)
      = [ Event.writeTabs Sink.xmlDebugStream,
          Event.put Sink.xmlDebugStream
            ("<scenario name=\"" ++ d.name ++ "\" date=\"" ++ d.dateString ++ "\">"),
          Event.endl Sink.xmlDebugStream,
          Event.increaseIndent,
          Event.writeTabs Sink.xmlDebugStream,
          Event.put Sink.xmlDebugStream "<summary>\"Debugging output\"</summary>",
          Event.endl Sink.xmlDebugStream,
          Event.modeltimeToDebugXML 0,
          Event.worldToDebugXML 0 ]
        ++ (loopPeriods d.modeltime.maxper).map Event.worldToDebugXML
        ++ [ Event.decreaseIndent,
             Event.writeTabs Sink.xmlDebugStream,
             Event.put Sink.xmlDebugStream "</scenario>",
             Event.endl Sink.xmlDebugStream ] := by
  rw [debugTrace_run]
  rfl

theorem count_debugTrace (tr : List Event) (e : Event) (h : e.onDebugTrace = true) :
    tr.count e = (debugTrace tr).count e :=
  (List.count_filter h).symm

theorem count_rootOpenTag (d : Driver) :
    (Scenario.run d).count
        (Event.put Sink.xmlDebugStream
          ("<scenario name=\"" ++ d.name ++ "\" date=\"" ++ d.dateString ++ "\">")) = 1 := by
  rw [count_debugTrace (Scenario.run d)
      (Event.put Sink.xmlDebugStream
        ("<scenario name=\"" ++ d.name ++ "\" date=\"" ++ d.dateString ++ "\">")) rfl,
    debugTrace_run_explicit, List.count_append, List.count_append, count_map_worldToDebugXML]
  have h1 := rootOpenTag_ne_summary d.name d.dateString
  have h2 := rootOpenTag_ne_rootCloseTag d.name d.dateString
  simp [List.count_cons, h1.symm, h2.symm]

theorem count_rootCloseTag (d : Driver) :
    (Scenario.run d).count (Event.put Sink.xmlDebugStream "</scenario>") = 1 := by
  rw [count_debugTrace (Scenario.run d) (Event.put Sink.xmlDebugStream "</scenario>") rfl,
    debugTrace_run_explicit, List.count_append, List.count_append, count_map_worldToDebugXML]
  have h2 := rootOpenTag_ne_rootCloseTag d.name d.dateString
  simp [List.count_cons, h2]

/-- C8: for every period count `n >= 1` (calibration disabled or not),
`Scenario::run` itself calls `world->calc` exactly once for each period
`0, 1, ..., n - 1`, in increasing order.  The debug trace it writes is, call by
call: the root open tag `<scenario name=".." date="..">` and the summary line
of `toDebugXMLOpen`, the period-0 block, then one `world->toDebugXML` block for
each period `1 .. n - 1` in order, then the root close tag `</scenario>` of
`toDebugXMLClose`.  The open tag and the close tag are each written exactly
once in the run, the trace holds exactly `n` per-period blocks, for the periods
`0 .. n - 1` in order, the indent is increased once and decreased once, and the
indent depth after the close equals the depth before the open. -/
theorem calc_and_debug_trace (d : Driver) (hn : 1 ≤ d.modeltime.maxper) :
    calcPeriods (Scenario.run d) = periodsFrom 0 d.modeltime.maxper
    ∧ debugTrace (Scenario.run d)
        = [ Event.writeTabs Sink.xmlDebugStream,
            Event.put Sink.xmlDebugStream
              ("<scenario name=\"" ++ d.name ++ "\" date=\"" ++ d.dateString ++ "\">"),
            Event.endl Sink.xmlDebugStream,
            Event.increaseIndent,
            Event.writeTabs Sink.xmlDebugStream,
            Event.put Sink.xmlDebugStream "<summary>\"Debugging output\"</summary>",
            Event.endl Sink.xmlDebugStream,
            Event.modeltimeToDebugXML 0,
            Event.worldToDebugXML 0 ]
          ++ (loopPeriods d.modeltime.maxper).map Event.worldToDebugXML
          ++ [ Event.decreaseIndent,
               Event.writeTabs Sink.xmlDebugStream,
               Event.put Sink.xmlDebugStream "</scenario>",
               Event.endl Sink.xmlDebugStream ]
    ∧ (Scenario.run d).count
        (Event.put Sink.xmlDebugStream
          ("<scenario name=\"" ++ d.name ++ "\" date=\"" ++ d.dateString ++ "\">")) = 1
    ∧ (Scenario.run d).count (Event.put Sink.xmlDebugStream "</scenario>") = 1
    ∧ (Scenario.run d).count Event.increaseIndent = 1
    ∧ (Scenario.run d).count Event.decreaseIndent = 1
    ∧ debugBlockPeriods (Scenario.run d) = periodsFrom 0 d.modeltime.maxper
    ∧ (debugBlockPeriods (Scenario.run d)).length = d.modeltime.maxper.toNat
    ∧ (∀ depth, tabDepth depth (Scenario.run d) = depth)
    ∧ (calcPeriods (Scenario.run d)).Pairwise (fun a b => a < b)
    ∧ (∀ p, p ∈ calcPeriods (Scenario.run d) ↔ 0 ≤ p ∧ p < d.modeltime.maxper)
    ∧ (∀ p, p ∈ debugBlockPeriods (Scenario.run d) ↔ 0 ≤ p ∧ p < d.modeltime.maxper) := by
  have h0 : periodsFrom 0 d.modeltime.maxper = 0 :: loopPeriods d.modeltime.maxper := by
    rw [periodsFrom_of_lt (by omega)]
    rfl
  have hcalc : calcPeriods (Scenario.run d) = periodsFrom 0 d.modeltime.maxper := by
    rw [calcPeriods_run, h0]
  have hblocks : debugBlockPeriods (Scenario.run d) = periodsFrom 0 d.modeltime.maxper := by
    rw [← debugBlockPeriods_debugTrace, debugTrace_run, h0]
    simp [debugBlockPeriods, Scenario.toDebugXMLOpen, Scenario.toDebugXMLClose,
      List.filterMap_append, List.filterMap_map, Function.comp_def]
  have hmid : ∀ e : Event, (∀ q, e ≠ Event.worldToDebugXML q) →
      ((loopPeriods d.modeltime.maxper).map Event.worldToDebugXML).count e = 0 := by
    intro e he
    rw [List.count_eq_zero]
    intro h
    obtain ⟨q, _, hq⟩ := List.mem_map.1 h
    exact he q hq.symm
  refine ⟨hcalc, debugTrace_run_explicit d, count_rootOpenTag d,
    count_rootCloseTag d, ?_, ?_, hblocks, ?_, ?_, ?_, ?_, ?_⟩
  · rw [count_debugTrace (Scenario.run d) Event.increaseIndent rfl, debugTrace_run_explicit,
      List.count_append, List.count_append, hmid _ (by intro q h; cases h)]
    simp [List.count_cons]
  · rw [count_debugTrace (Scenario.run d) Event.decreaseIndent rfl, debugTrace_run_explicit,
      List.count_append, List.count_append, hmid _ (by intro q h; cases h)]
    simp [List.count_cons]
  · rw [hblocks, length_periodsFrom]
    simp
  · intro depth
    rw [run_eq, tabDepth_append, tabDepth_append, tabDepth_firstPeriod,
      tabDepth_flatMap_loopBody, tabDepth_afterLoop]
  · rw [hcalc]
    exact periodsFrom_pairwise _ _
  · intro p
    rw [hcalc]
    exact mem_periodsFrom
  · intro p
    rw [hblocks]
    exact mem_periodsFrom

/-- Witness of `calc_and_debug_trace`: three periods, calibration disabled. -/
theorem calc_and_debug_trace_witness :
    demo3.conf.CalibrationActive = false
    ∧ calcPeriods (Scenario.run demo3) = [0, 1, 2]
    ∧ debugBlockPeriods (Scenario.run demo3) = [0, 1, 2]
    ∧ (Scenario.run demo3).count (Event.put Sink.xmlDebugStream "</scenario>") = 1
    ∧ debugTrace (Scenario.run demo3)
        = [ Event.writeTabs Sink.xmlDebugStream,
            Event.put Sink.xmlDebugStream
              "<scenario name=\"base\" date=\"2003-01-01T00:00:00-00:00\">",
            Event.endl Sink.xmlDebugStream,
            Event.increaseIndent,
            Event.writeTabs Sink.xmlDebugStream,
            Event.put Sink.xmlDebugStream "<summary>\"Debugging output\"</summary>",
            Event.endl Sink.xmlDebugStream,
            Event.modeltimeToDebugXML 0,
            Event.worldToDebugXML 0,
            Event.worldToDebugXML 1,
            Event.worldToDebugXML 2,
            Event.decreaseIndent,
            Event.writeTabs Sink.xmlDebugStream,
            Event.put Sink.xmlDebugStream "</scenario>",
            Event.endl Sink.xmlDebugStream ] :=
  ⟨rfl, (calc_and_debug_trace demo3 (by decide)).1.trans (by decide),
   (calc_and_debug_trace demo3 (by decide)).2.2.2.2.2.2.1.trans (by decide),
   (calc_and_debug_trace demo3 (by decide)).2.2.2.1,
   (calc_and_debug_trace demo3 (by decide)).2.1.trans (by decide)⟩

/-! ## Dependency graphs -/

theorem filterMap_flatMap_nil {α β γ : Type} (f : α → List β) (g : β → Option γ)
    (h : ∀ a, (f a).filterMap g = []) (l : List α) :
    (l.flatMap f).filterMap g = [] := by
  induction l with
  | nil => rfl
  | cons a l ih => rw [List.flatMap_cons, List.filterMap_append, h, ih]; rfl

theorem rowsFrom_append (out : Sink) (a b : List Event) (cur : String) :
    rowsFrom out (a ++ b) cur = rowsFrom out a cur ++ rowsFrom out b (pendingRow out a cur) := by
  induction a generalizing cur with
  | nil => rfl
  | cons e a ih =>
    cases e <;> rw [List.cons_append] <;> simp only [rowsFrom, pendingRow, ih]
    all_goals split <;> simp

theorem pendingRow_append (out : Sink) (a b : List Event) (cur : String) :
    pendingRow out (a ++ b) cur = pendingRow out b (pendingRow out a cur) := by
  induction a generalizing cur with
  | nil => rfl
  | cons e a ih =>
    cases e <;> rw [List.cons_append] <;> simp only [pendingRow, ih]
    all_goals split <;> simp

theorem sd_firstPeriod (d : Driver) (cur : String) :
    rowsFrom Sink.sdcurvefile (Scenario.firstPeriod d) cur = []
    ∧ pendingRow Sink.sdcurvefile (Scenario.firstPeriod d) cur = cur := by
  cases hc : d.conf.CalibrationActive <;> cases hs : d.conf.PrintSectorDependencies <;>
    simp [Scenario.firstPeriod, Scenario.toDebugXMLOpen, Scenario.printSectorDependencies,
      rowsFrom, pendingRow, hc, hs]

theorem sd_afterLoop (d : Driver) (q : Int) (cur : String) :
    rowsFrom Sink.sdcurvefile (Scenario.afterLoop d q) cur = [] := by
  cases hf : d.haveFortran <;>
    simp [Scenario.afterLoop, Scenario.toDebugXMLClose, rowsFrom, hf]

theorem sd_loopBody (d : Driver) (q : Int) :
    rowsFrom Sink.sdcurvefile (Scenario.loopBody d q) "" = [sdTitleRow d q, sdHeaderRow]
    ∧ pendingRow Sink.sdcurvefile (Scenario.loopBody d q) "" = "" := by
  cases hg : d.conf.PrintDependencyGraphs <;>
    simp [Scenario.loopBody, Scenario.printGraphs, rowsFrom, pendingRow, sdTitleRow,
      sdHeaderRow, hg]

theorem sd_flatMap_loopBody (d : Driver) (l : List Int) :
    rowsFrom Sink.sdcurvefile (l.flatMap (Scenario.loopBody d)) ""
        = l.flatMap (fun p => [sdTitleRow d p, sdHeaderRow])
    ∧ pendingRow Sink.sdcurvefile (l.flatMap (Scenario.loopBody d)) "" = "" := by
  induction l with
  | nil => exact ⟨rfl, rfl⟩
  | cons q l ih =>
    rw [List.flatMap_cons, rowsFrom_append, pendingRow_append, (sd_loopBody d q).1,
      (sd_loopBody d q).2, ih.1, ih.2]
    exact ⟨rfl, rfl⟩

/-- The rows `Scenario::run` writes to `sdcurvefile`: a title row and a header
row for each period of the loop. -/
theorem rows_sdcurvefile_run (d : Driver) :
    rows Sink.sdcurvefile (Scenario.run d)
      = (loopPeriods d.modeltime.maxper).flatMap (fun p => [sdTitleRow d p, sdHeaderRow]) := by
  unfold rows
  rw [run_eq, rowsFrom_append, rowsFrom_append, (sd_firstPeriod d "").1,
    (sd_firstPeriod d "").2, (sd_flatMap_loopBody d _).1, sd_afterLoop]
  simp

theorem sdTitleRow_ne_sdHeaderRow (d : Driver) (p : Int) : sdTitleRow d p ≠ sdHeaderRow := by
  intro h
  have h2 := congrArg (fun s => s.data.head?) h
  simp [sdTitleRow, sdHeaderRow, Scenario.sdHeaderGroup] at h2

theorem count_sdHeaderRow (d : Driver) (l : List Int) :
    (l.flatMap (fun p => [sdTitleRow d p, sdHeaderRow])).count sdHeaderRow = l.length := by
  induction l with
  | nil => rfl
  | cons q l ih =>
    rw [List.flatMap_cons, List.count_append, ih]
    have hne : (sdTitleRow d q == sdHeaderRow) = false := by
      simpa using sdTitleRow_ne_sdHeaderRow d q
    simp [List.count_cons, hne]
    omega

/-- C10, as the code has it: `Scenario::run` writes to the supply/demand trace
only inside the loop.  Each period `1 .. n - 1` contributes one row-group, made
of a title row `Period <p>: <year>` and one header row of five repetitions of
`Market,Name,Price,Supply,Demand,`; period 0 contributes nothing; so the driver
writes exactly `n - 1` header rows (none when `n <= 1`). -/
theorem sdcurve_header_rows (d : Driver) :
    rows Sink.sdcurvefile (Scenario.run d)
      = (loopPeriods d.modeltime.maxper).flatMap (fun p => [sdTitleRow d p, sdHeaderRow])
    ∧ rows Sink.sdcurvefile (Scenario.firstPeriod d) = []
    ∧ (rows Sink.sdcurvefile (Scenario.run d)).count sdHeaderRow
        = (d.modeltime.maxper - 1).toNat
    ∧ sdHeaderRow
        = "Market,Name,Price,Supply,Demand,Market,Name,Price,Supply,Demand,"
          ++ "Market,Name,Price,Supply,Demand,Market,Name,Price,Supply,Demand,"
          ++ "Market,Name,Price,Supply,Demand," := by
  refine ⟨rows_sdcurvefile_run d, (sd_firstPeriod d "").1, ?_, by decide⟩
  rw [rows_sdcurvefile_run, count_sdHeaderRow, loopPeriods, length_periodsFrom]

/-- C10 as stated fails: a run over three periods writes two header rows to the
supply/demand trace (for periods 1 and 2), not three, and none for period 0. -/
theorem sdcurve_header_rows_counterexample :
    demo3.modeltime.maxper = 3
    ∧ rows Sink.sdcurvefile (Scenario.run demo3)
        = ["Period 1: 1990", sdHeaderRow, "Period 2: 2005", sdHeaderRow]
    ∧ (rows Sink.sdcurvefile (Scenario.run demo3)).count sdHeaderRow ≠ 3 := by
  have h : rows Sink.sdcurvefile (Scenario.run demo3)
      = ["Period 1: 1990", sdHeaderRow, "Period 2: 2005", sdHeaderRow] := by
    rw [rows_sdcurvefile_run]
    decide
  refine ⟨rfl, h, ?_⟩
  rw [h]
  decide

/-! ## `Scenario::XMLParse` -/

theorem XMLParseChildren_cons {M W K : Type} (D : ParseDeps M W) (curr : DOMNode)
    (rest : List DOMNode) (s : ParseState M W K) :
    XMLParseChildren D (curr :: rest) s = XMLParseChildren D rest (XMLParseChild D s curr) :=
  rfl

theorem XMLParseChild_unrecognized {M W K : Type} (D : ParseDeps M W)
    (s : ParseState M W K) (curr : DOMNode) (h : curr.isRecognized = false) :
    (XMLParseChild D s curr).scenario = s.scenario
    ∧ (XMLParseChild D s curr).calls = s.calls := by
  simp only [DOMNode.isRecognized, Bool.or_eq_false_iff, beq_eq_false_iff_ne, ne_eq] at h
  obtain ⟨⟨h1, h2⟩, h3⟩ := h
  unfold XMLParseChild
  by_cases ht : curr.nodeName = "#text"
  · simp [ht]
  · simp [ht, h1, h2, h3]

/-- The scenario and the calls after one child depend only on the scenario and
the calls before it, not on what was written to `cout`. -/
theorem XMLParseChild_congr {M W K : Type} (D : ParseDeps M W)
    (s t : ParseState M W K) (curr : DOMNode)
    (h1 : s.scenario = t.scenario) (h2 : s.calls = t.calls) :
    (XMLParseChild D s curr).scenario = (XMLParseChild D t curr).scenario
    ∧ (XMLParseChild D s curr).calls = (XMLParseChild D t curr).calls := by
  unfold XMLParseChild
  by_cases ht : curr.nodeName = "#text"
  · simp [ht, h1, h2]
  by_cases hs : curr.nodeName = "summary"
  · simp [ht, hs, h1, h2]
  by_cases hm : curr.nodeName = "modeltime"
  · simp only [ht, hs, hm, if_true, if_false, h1]
    cases t.scenario.modeltime <;> simp [h1, h2]
  by_cases hw : curr.nodeName = "world"
  · simp only [ht, hs, hm, hw, if_true, if_false, h1]
    cases t.scenario.world <;> simp [h1, h2]
  · simp [ht, hs, hm, hw, h1, h2]

theorem XMLParseChildren_filter {M W K : Type} (D : ParseDeps M W)
    (children : List DOMNode) (s t : ParseState M W K)
    (h1 : s.scenario = t.scenario) (h2 : s.calls = t.calls) :
    (XMLParseChildren D children s).scenario
        = (XMLParseChildren D (children.filter DOMNode.isRecognized) t).scenario
    ∧ (XMLParseChildren D children s).calls
        = (XMLParseChildren D (children.filter DOMNode.isRecognized) t).calls := by
  induction children generalizing s t with
  | nil => exact ⟨h1, h2⟩
  | cons curr rest ih =>
    rw [XMLParseChildren_cons]
    cases hr : curr.isRecognized
    · rw [List.filter_cons_of_neg (by simp [hr])]
      have hu := XMLParseChild_unrecognized D s curr hr
      exact ih _ t (hu.1.trans h1) (hu.2.trans h2)
    · rw [List.filter_cons_of_pos hr, XMLParseChildren_cons]
      have hc := XMLParseChild_congr D s t curr h1 h2
      exact ih _ _ hc.1 hc.2

/-- C7: a child of the scenario node whose tag is none of `summary`,
`modeltime`, `world` leaves every data member of the scenario (name, summary,
`Modeltime`, `World`, marketplace) unchanged and causes no call on `Modeltime`
or `World`; `Scenario::XMLParse` always runs to the end of the child list, and
the scenario it ends in is the scenario it ends in on the same node with the
unrecognized children removed. -/
theorem unrecognized_children_ignored {M W K : Type} (D : ParseDeps M W) :
    (∀ (s : ParseState M W K) (curr : DOMNode), curr.isRecognized = false →
        (XMLParseChild D s curr).scenario = s.scenario
        ∧ (XMLParseChild D s curr).calls = s.calls)
    ∧ ∀ (node : ScenarioNode) (s : ParseState M W K),
        (XMLParse D node s).scenario
          = (XMLParse D { node with children := node.children.filter DOMNode.isRecognized }
              s).scenario
        ∧ (XMLParse D node s).calls
          = (XMLParse D { node with children := node.children.filter DOMNode.isRecognized }
              s).calls := by
  refine ⟨fun s curr h => XMLParseChild_unrecognized D s curr h, ?_⟩
  intro node s
  unfold XMLParse
  exact XMLParseChildren_filter D node.children _ _ rfl rfl

/-- Witness of `unrecognized_children_ignored`: an unknown tag `climate` on a
scenario whose `Modeltime` is parsed. -/
theorem unrecognized_children_ignored_witness :
    (XMLParseChild demoDeps demoParsed
        { nodeName := "climate", valueString := "magicc" }).scenario = demoParsed.scenario :=
  ((unrecognized_children_ignored demoDeps).1 demoParsed
    { nodeName := "climate", valueString := "magicc" } (by decide)).1

/-! ## Carryover and reset of the market state -/

theorem exec_append {σ V : Type} (I : Interp σ V) (a b : List Event) (s : σ) :
    exec I (a ++ b) s = exec I b (exec I a s) := by
  simp [exec, List.foldl_append]

theorem exec_cons {σ V : Type} (I : Interp σ V) (e : Event) (tr : List Event) (s : σ) :
    exec I (e :: tr) s = exec I tr (I.step e s) :=
  rfl

theorem exec_nil {σ V : Type} (I : Interp σ V) (s : σ) : exec I [] s = s :=
  rfl

theorem regs_exec_of_keeps {σ V : Type} (I : Interp σ V) (hC : CarryoverContract I)
    (q : Int) (tr : List Event) (h : ∀ e ∈ tr, e.keepsPeriod q = true) (s : σ) (g : Nat) :
    I.regs (exec I tr s) g q = I.regs s g q := by
  induction tr generalizing s with
  | nil => rfl
  | cons e tr ih =>
    rw [exec_cons, ih (fun e he => h e (List.mem_cons_of_mem _ he)),
      hC.keeps e q s g (h e (List.mem_cons_self _ _))]

/-- The body of the loop, cut at its `marketplace->solve( per )` call. -/
theorem loopBody_cut_solve (d : Driver) (p : Int) :
    Scenario.loopBody d p
      = (Scenario.loopBody d p).take 22 ++ Event.solve p :: (Scenario.loopBody d p).drop 23 := by
  cases hg : d.conf.PrintDependencyGraphs <;>
    simp [Scenario.loopBody, hg]

/-- The body of the loop, cut at its `marketplace->storeto_last( per )` call. -/
theorem loopBody_cut_storeto_last (d : Driver) (p : Int) :
    Scenario.loopBody d p
      = (Scenario.loopBody d p).take 18 ++ Event.storeto_last p
          :: (Scenario.loopBody d p).drop 19 := by
  cases hg : d.conf.PrintDependencyGraphs <;>
    simp [Scenario.loopBody, hg]

theorem keeps_after_solve (d : Driver) (q : Int) :
    ∀ e ∈ (Scenario.loopBody d q).drop 23, e.keepsPeriod q = true := by
  cases hg : d.conf.PrintDependencyGraphs <;>
    simp [Scenario.loopBody, Scenario.printGraphs, Event.keepsPeriod, Event.isReporting, hg]

theorem keeps_before_storeto_last (d : Driver) {p q : Int} (h : p ≠ q) :
    ∀ e ∈ (Scenario.loopBody d p).take 18, e.keepsPeriod q = true := by
  cases hg : d.conf.PrintDependencyGraphs <;>
    simp [Scenario.loopBody, Scenario.printGraphs, Event.keepsPeriod, Event.isReporting, hg, h]

/-- The statements before the loop, cut at `world->calc( 0 )`: what follows the
call is reporting only and holds no `solve`, what precedes it holds no
`solve`. -/
theorem firstPeriod_cut_calc (d : Driver) :
    ∃ pre mid, Scenario.firstPeriod d = pre ++ Event.calc 0 :: mid
      ∧ (∀ e ∈ mid, e.isReporting = true)
      ∧ (∀ q, Event.solve q ∉ pre) := by
  cases hc : d.conf.CalibrationActive
  · refine ⟨(Scenario.firstPeriod d).take 13, (Scenario.firstPeriod d).drop 14, ?_, ?_, ?_⟩ <;>
      cases hs : d.conf.PrintSectorDependencies <;>
      simp [Scenario.firstPeriod, Scenario.toDebugXMLOpen, Scenario.printSectorDependencies,
        Event.isReporting, hc, hs]
  · refine ⟨(Scenario.firstPeriod d).take 14, (Scenario.firstPeriod d).drop 15, ?_, ?_, ?_⟩ <;>
      cases hs : d.conf.PrintSectorDependencies <;>
      simp [Scenario.firstPeriod, Scenario.toDebugXMLOpen, Scenario.printSectorDependencies,
        Event.isReporting, hc, hs]

theorem keepsPeriod_of_isReporting {e : Event} (q : Int) (h : e.isReporting = true) :
    e.keepsPeriod q = true := by
  simp [Event.keepsPeriod, h]

theorem solve_not_mem_of_isReporting {tr : List Event} (h : ∀ e ∈ tr, e.isReporting = true)
    (q : Int) : Event.solve q ∉ tr := by
  intro hq
  have := h _ hq
  simp [Event.isReporting] at this

theorem solve_not_mem_before_storeto_last (d : Driver) (p q : Int) :
    Event.solve q ∉ (Scenario.loopBody d p).take 18 := by
  cases hg : d.conf.PrintDependencyGraphs <;>
    simp [Scenario.loopBody, Scenario.printGraphs, hg]

/-- The calls of `Scenario::run` from `solve( p - 1 )` to `storeto_last( p )`,
for a period `p >= 2` of the loop. -/
theorem run_cut_solve_storeto_last (d : Driver) {p : Int} (h1 : 2 ≤ p)
    (h2 : p < d.modeltime.maxper) :
    ∃ pre mid post,
      Scenario.run d = pre ++ Event.solve (p - 1) :: (mid ++ Event.storeto_last p :: post)
      ∧ ∀ e ∈ mid, e.keepsPeriod (p - 1) = true := by
  refine ⟨Scenario.firstPeriod d ++ (periodsFrom 1 (p - 1)).flatMap (Scenario.loopBody d)
      ++ (Scenario.loopBody d (p - 1)).take 22,
    (Scenario.loopBody d (p - 1)).drop 23 ++ (Scenario.loopBody d p).take 18,
    (Scenario.loopBody d p).drop 19
      ++ (periodsFrom (p + 1) d.modeltime.maxper).flatMap (Scenario.loopBody d)
      ++ Scenario.afterLoop d (max 1 d.modeltime.maxper), ?_, ?_⟩
  · have hsplit : loopPeriods d.modeltime.maxper
        = periodsFrom 1 (p - 1) ++ (p - 1) :: p :: periodsFrom (p + 1) d.modeltime.maxper := by
      rw [loopPeriods_split (p := p - 1) (by omega) (by omega)]
      have e : p - 1 + 1 = p := by omega
      rw [e, periodsFrom_of_lt h2]
    conv_lhs =>
      rw [run_eq, hsplit, List.flatMap_append, List.flatMap_cons, List.flatMap_cons,
        loopBody_cut_solve d (p - 1), loopBody_cut_storeto_last d p]
    simp [List.append_assoc]
  · intro e he
    rw [List.mem_append] at he
    rcases he with he | he
    · exact keeps_after_solve d (p - 1) e he
    · exact keeps_before_storeto_last d (by omega) e he

/-- The calls of `Scenario::run` from `calc( 0 )` to `storeto_last( 1 )`. -/
theorem run_cut_calc_storeto_last (d : Driver) (h : 1 < d.modeltime.maxper) :
    ∃ pre mid post,
      Scenario.run d = pre ++ Event.calc 0 :: (mid ++ Event.storeto_last 1 :: post)
      ∧ (∀ e ∈ mid, e.keepsPeriod 0 = true)
      ∧ (∀ q, Event.solve q ∉ pre ++ Event.calc 0 :: mid) := by
  obtain ⟨pre, mid, hfirst, hmid, hpre⟩ := firstPeriod_cut_calc d
  refine ⟨pre, mid ++ (Scenario.loopBody d 1).take 18,
    (Scenario.loopBody d 1).drop 19
      ++ (periodsFrom (1 + 1) d.modeltime.maxper).flatMap (Scenario.loopBody d)
      ++ Scenario.afterLoop d (max 1 d.modeltime.maxper), ?_, ?_, ?_⟩
  · conv_lhs =>
      rw [run_eq, loopPeriods, periodsFrom_of_lt h, List.flatMap_cons, hfirst,
        loopBody_cut_storeto_last d 1]
    simp [List.append_assoc]
  · intro e he
    rw [List.mem_append] at he
    rcases he with he | he
    · exact keepsPeriod_of_isReporting 0 (hmid e he)
    · exact keeps_before_storeto_last d (by decide) e he
  · intro q hq
    simp only [List.mem_append, List.mem_cons] at hq
    rcases hq with hq | hq | hq | hq
    · exact hpre q hq
    · cases hq
    · exact solve_not_mem_of_isReporting hmid q hq
    · exact solve_not_mem_before_storeto_last d 1 q hq

theorem shadow_after_cut {σ V : Type} (I : Interp σ V) (hC : CarryoverContract I)
    (pre mid : List Event) (e : Event) (p : Int)
    (hmid : ∀ x ∈ mid, x.keepsPeriod (p - 1) = true) (s : σ) (g : Nat) :
    I.last (exec I (pre ++ e :: (mid ++ [Event.storeto_last p])) s) g
      = I.regs (exec I (pre ++ [e]) s) g (p - 1) := by
  have e1 : pre ++ e :: (mid ++ [Event.storeto_last p])
      = (pre ++ [e]) ++ (mid ++ [Event.storeto_last p]) := by simp
  rw [e1, exec_append, exec_append, exec_cons, exec_nil, hC.storeto_last_copies,
    regs_exec_of_keeps I hC (p - 1) mid hmid]

/-- C4, as the code has it: whatever the collaborators do within their
contract, for every period `p` with `2 <= p < maxPeriod` the shadow copy that
`storeto_last( p )` fills holds the registers of period `p - 1` exactly as they
stood when `solve( p - 1 )` returned; for `p = 1` there is no solve step of
period 0 to read from: no `solve` call precedes `storeto_last( 1 )`, and the
shadow copy holds the registers of period 0 as `calc( 0 )` left them. -/
theorem carryover_reads_previous_period {σ V : Type} (I : Interp σ V)
    (hC : CarryoverContract I) (d : Driver) :
    (∀ p : Int, 2 ≤ p → p < d.modeltime.maxper →
      ∃ pre mid post,
        Scenario.run d = pre ++ Event.solve (p - 1) :: (mid ++ Event.storeto_last p :: post)
        ∧ ∀ (s : σ) (g : Nat),
            I.last (exec I (pre ++ Event.solve (p - 1) :: (mid ++ [Event.storeto_last p])) s) g
              = I.regs (exec I (pre ++ [Event.solve (p - 1)]) s) g (p - 1))
    ∧ (1 < d.modeltime.maxper →
      ∃ pre mid post,
        Scenario.run d = pre ++ Event.calc 0 :: (mid ++ Event.storeto_last 1 :: post)
        ∧ (∀ q, Event.solve q ∉ pre ++ Event.calc 0 :: mid)
        ∧ ∀ (s : σ) (g : Nat),
            I.last (exec I (pre ++ Event.calc 0 :: (mid ++ [Event.storeto_last 1])) s) g
              = I.regs (exec I (pre ++ [Event.calc 0]) s) g 0) := by
  constructor
  · intro p h1 h2
    obtain ⟨pre, mid, post, hrun, hmid⟩ := run_cut_solve_storeto_last d h1 h2
    exact ⟨pre, mid, post, hrun, fun s g => shadow_after_cut I hC pre mid _ p hmid s g⟩
  · intro h
    obtain ⟨pre, mid, post, hrun, hmid, hsolve⟩ := run_cut_calc_storeto_last d h
    exact ⟨pre, mid, post, hrun, hsolve,
      fun s g => shadow_after_cut I hC pre mid _ 1 hmid s g⟩

theorem marketInterp_carryover : CarryoverContract marketInterp := by
  constructor
  · intro p s g
    rfl
  · intro e q s g h
    cases e <;> simp [Event.keepsPeriod, Event.isReporting] at h <;>
      simp [marketInterp, Marketplace.step]
    all_goals
      intro hq
      exact absurd hq.symm h

/-- Witness of `carryover_reads_previous_period`: periods 2 and 1 of a run of
three periods, on the integer market state. -/
theorem carryover_reads_previous_period_witness :
    (∃ pre mid post,
      Scenario.run demo3 = pre ++ Event.solve (2 - 1) :: (mid ++ Event.storeto_last 2 :: post)
      ∧ ∀ (s : Marketplace) (g : Nat),
          marketInterp.last
              (exec marketInterp (pre ++ Event.solve (2 - 1) :: (mid ++ [Event.storeto_last 2])) s) g
            = marketInterp.regs (exec marketInterp (pre ++ [Event.solve (2 - 1)]) s) g (2 - 1))
    ∧ (∃ pre mid post,
      Scenario.run demo3 = pre ++ Event.calc 0 :: (mid ++ Event.storeto_last 1 :: post)
      ∧ (∀ q, Event.solve q ∉ pre ++ Event.calc 0 :: mid)
      ∧ ∀ (s : Marketplace) (g : Nat),
          marketInterp.last
              (exec marketInterp (pre ++ Event.calc 0 :: (mid ++ [Event.storeto_last 1])) s) g
            = marketInterp.regs (exec marketInterp (pre ++ [Event.calc 0]) s) g 0) :=
  ⟨(carryover_reads_previous_period marketInterp marketInterp_carryover demo3).1 2
      (by decide) (by decide),
   (carryover_reads_previous_period marketInterp marketInterp_carryover demo3).2 (by decide)⟩

/-- C4 as stated fails at `p = 1`: in a run of three periods `storeto_last( 1 )`
is issued, and period 0 never had a solve step: `solve` is called for periods 1
and 2 only, and `calc( 0 )` is the one evaluation of period 0. -/
theorem carryover_first_period_counterexample :
    (1 : Int) ≤ 1 ∧ (1 : Int) < demo3.modeltime.maxper
    ∧ (Scenario.run demo3).count (Event.storeto_last 1) = 1
    ∧ (Scenario.run demo3).count (Event.solve (1 - 1)) = 0
    ∧ solvePeriods (Scenario.run demo3) = [1, 2] := by
  have hs : solvePeriods (Scenario.run demo3) = [1, 2] := by
    rw [solvePeriods_run]
    decide
  refine ⟨by decide, by decide, ?_, ?_, hs⟩
  · rw [run_eq]
    decide
  · rw [run_eq]
    decide

end CIAM
